import Mathlib

/-!
Verification of core claims about the Redox OS kernel slice:
the x86-64 syscall return gate, the pipe scheme, the IRQ scheme,
and the scheduler's `update_runnable` routine.

Machine integers are modelled as `Nat` with explicit truncation where
overflow matters.  Fallible operations return `Except`.  Blocking
operations return a dedicated `blocked` outcome: one invocation of a
blocking loop body is modelled, with suspension on the wait condition
represented explicitly.
-/

/-! ## Error codes (from `syscall::error`, external to the kernel slice) -/

inductive KError where
  | EACCES | EAGAIN | EBADF | EINVAL | ENOENT | EPIPE | EINTR
  | EEXIST | ESPIPE | EISDIR | EBADFD
deriving DecidableEq, Repr

/-! ## Event and fcntl flag constants (from `syscall::flag`) -/

def EVENT_READ : Nat := 1
def EVENT_WRITE : Nat := 2

def O_NONBLOCK : Nat := 0x00040000
def O_CLOEXEC : Nat := 0x01000000
def O_CREAT : Nat := 0x02000000
def O_DIRECTORY : Nat := 0x10000000
def O_STAT : Nat := 0x20000000
def O_ACCMODE : Nat := 0x00030000

/-! ## C1: the x86-64 syscall return gate

Embeds the tail of `syscall_instruction` in
`src/arch/x86_64/interrupt/syscall.rs`: after popping the context
registers, the saved RIP (the pushed RCX) sits at the stack top as a
64-bit word; the code runs
`test DWORD PTR [rsp + 4], 0xFFFF8000` and `jnz` to the slow path.
The dword at `rsp + 4` holds bits 32..63 of the saved RIP, and the mask
`0xFFFF8000` selects bits 15..31 of that dword, i.e. bits 47..63 of the
saved RIP.  `jnz` (taken when the AND is nonzero) goes to the `iretq`
path, which zeroes RCX and R11 and runs `swapgs`; otherwise the fast
path restores RCX/R11 from the frame, runs `swapgs` and `sysretq`. -/

def SYSRET_RIP_MASK : Nat := 0xFFFF8000

/-- The value computed by `test DWORD PTR [rsp + 4], 0xFFFF8000`:
the dword at offset 4 of the saved RIP qword, ANDed with the mask. -/
def canonicalTest (savedRip : Nat) : Nat :=
  (savedRip / 2 ^ 32 % 2 ^ 32) &&& SYSRET_RIP_MASK

/-- Architectural state produced by the return path. -/
structure SyscallReturn where
  usesSysret : Bool
  rcx : Nat
  r11 : Nat
  didSwapgs : Bool
deriving DecidableEq, Repr

/-- The return tail of `syscall_instruction`: `jnz` to the slow `iretq`
path exactly when the masked test is nonzero; the fast path restores
RCX and R11 from the saved frame, the slow path zeroes both.  Both
paths execute `swapgs` before returning to userspace. -/
def syscallReturnPath (savedRip savedRflags : Nat) : SyscallReturn :=
  if canonicalTest savedRip = 0 then
    { usesSysret := true, rcx := savedRip, r11 := savedRflags, didSwapgs := true }
  else
    { usesSysret := false, rcx := 0, r11 := 0, didSwapgs := true }

/-! ## Pipe scheme (`src/scheme/pipe.rs`)

`PIPES` is a map from record keys to pipe records; an id's top bit
distinguishes the write side from the read side.  User buffers are
modelled as plain byte lists (a fault-free user address space), so the
fault-recovery arm of the 512-byte bounce-buffer loop never fires; the
chunked copy itself is modelled faithfully.  A single pass of each
blocking loop is modelled; suspension on a `WaitCondition` is the
explicit `blocked` outcome. -/

def MAX_QUEUE_SIZE : Nat := 65536

def WRITE_NOT_READ_BIT : Nat := 2 ^ 63

/-- Decomposition of a raw pipe id: `(id & WRITE_NOT_READ_BIT != 0, id & !WRITE_NOT_READ_BIT)`
(the complement of the top bit of a 64-bit word is `2 ^ 63 - 1`). -/
def from_raw_id (id : Nat) : Bool × Nat :=
  (id &&& WRITE_NOT_READ_BIT != 0, id &&& (WRITE_NOT_READ_BIT - 1))

structure Pipe where
  read_flags : Nat
  write_flags : Nat
  queue : List Nat
  reader_is_alive : Bool
  writer_is_alive : Bool
  has_run_dup : Bool
deriving DecidableEq, Repr

/-- A fresh pipe record, as built by `pipe(flags)`. -/
def Pipe.new (flags : Nat) : Pipe :=
  { read_flags := flags, write_flags := flags, queue := [],
    reader_is_alive := true, writer_is_alive := true, has_run_dup := false }

/-- The two wait conditions of a pipe record. -/
inductive PipeCond where
  | readCond
  | writeCond
deriving DecidableEq, Repr

inductive WriteOutcome where
  | ok (n : Nat)
  | err (e : KError)
  | blocked (c : PipeCond)
deriving DecidableEq, Repr

inductive ReadOutcome where
  | ok (data : List Nat)
  | err (e : KError)
  | blocked (c : PipeCond)
deriving DecidableEq, Repr

/-- Result of a per-pipe step: outcome, updated record, posted scheme
events `(id, flag)`, and notified wait conditions. -/
structure PipeStepRes (α : Type) where
  result : α
  pipe : Pipe
  events : List (Nat × Nat)
  notified : List PipeCond

/-- Result of a registry-level pipe operation. -/
structure PipeRes (α : Type) where
  result : α
  pipes : Nat → Option Pipe
  events : List (Nat × Nat)
  notified : List PipeCond

def TMPBUF_SIZE : Nat := 512

/-- The chunk decomposition produced by `in_variable_chunks(TMPBUF_SIZE)`. -/
def chunksOf : List Nat → List (List Nat)
  | [] => []
  | x :: rest => ((x :: rest).take TMPBUF_SIZE) :: chunksOf ((x :: rest).drop TMPBUF_SIZE)
termination_by l => l.length
decreasing_by simp [TMPBUF_SIZE]; omega

/-- The bounce-buffer loop of `kwrite`: each chunk is copied through the
512-byte temporary and appended to the queue, accumulating `bytes_written`. -/
def writeChunkLoop (vecq : List Nat) (cs : List (List Nat)) : List Nat × Nat :=
  cs.foldl (fun acc c => (acc.1 ++ c, acc.2 + c.length)) (vecq, 0)

/-- One pass of the `kwrite` loop body on the pipe with record key `key`. -/
def Pipe.writeOnce (p : Pipe) (key : Nat) (buf : List Nat) : PipeStepRes WriteOutcome :=
  let bytes_left := MAX_QUEUE_SIZE - p.queue.length
  let bytes_to_write := min bytes_left buf.length
  let src_buf := buf.take bytes_to_write
  let step := writeChunkLoop p.queue (chunksOf src_buf)
  let vecq := step.1
  let bytes_written := step.2
  if bytes_written > 0 then
    { result := .ok bytes_written, pipe := { p with queue := vecq },
      events := [(key, EVENT_READ)], notified := [.readCond] }
  else if buf = [] then
    { result := .ok 0, pipe := p, events := [], notified := [] }
  else if p.reader_is_alive = false then
    { result := .err .EPIPE, pipe := p, events := [], notified := [] }
  else if p.write_flags &&& O_NONBLOCK = O_NONBLOCK then
    { result := .err .EAGAIN, pipe := p, events := [], notified := [] }
  else
    { result := .blocked .writeCond, pipe := p, events := [], notified := [] }

/-- One pass of the `kread` loop body.  In the list model of `VecDeque`,
`as_slices` yields the whole queue as the first slice and an empty
second slice; the drained prefix is returned as the data copied out. -/
def Pipe.readOnce (p : Pipe) (key : Nat) (buflen : Nat) : PipeStepRes ReadOutcome :=
  let s1_count := min buflen p.queue.length
  let bytes_read := s1_count
  let data := p.queue.take bytes_read
  let vecq := p.queue.drop bytes_read
  if bytes_read > 0 then
    { result := .ok data, pipe := { p with queue := vecq },
      events := [(key ||| WRITE_NOT_READ_BIT, EVENT_WRITE)], notified := [.writeCond] }
  else if buflen = 0 then
    { result := .ok [], pipe := p, events := [], notified := [] }
  else if p.writer_is_alive = false then
    { result := .ok [], pipe := p, events := [], notified := [] }
  else if p.read_flags &&& O_NONBLOCK = O_NONBLOCK then
    { result := .err .EAGAIN, pipe := p, events := [], notified := [] }
  else
    { result := .blocked .readCond, pipe := p, events := [], notified := [] }

/-- `PipeScheme::kwrite`: the write side is required, the record is
looked up, and one pass of the loop body is taken. -/
def PipeScheme.kwrite (P : Nat → Option Pipe) (id : Nat) (buf : List Nat) :
    PipeRes WriteOutcome :=
  let d := from_raw_id id
  if d.1 = false then
    { result := .err .EBADF, pipes := P, events := [], notified := [] }
  else
    match P d.2 with
    | none => { result := .err .EBADF, pipes := P, events := [], notified := [] }
    | some pipe =>
      let s := pipe.writeOnce d.2 buf
      { result := s.result, pipes := fun k => if k = d.2 then some s.pipe else P k,
        events := s.events, notified := s.notified }

/-- `PipeScheme::kread`: the read side is required. -/
def PipeScheme.kread (P : Nat → Option Pipe) (id : Nat) (buflen : Nat) :
    PipeRes ReadOutcome :=
  let d := from_raw_id id
  if d.1 = true then
    { result := .err .EBADF, pipes := P, events := [], notified := [] }
  else
    match P d.2 with
    | none => { result := .err .EBADF, pipes := P, events := [], notified := [] }
    | some pipe =>
      let s := pipe.readOnce d.2 buflen
      { result := s.result, pipes := fun k => if k = d.2 then some s.pipe else P k,
        events := s.events, notified := s.notified }

/-- The ASCII bytes of the 5-byte dup-request literal `b"write"`. -/
def writeLit : List Nat := [119, 114, 105, 116, 101]

/-- `PipeScheme::kdup`.  `copy_common_bytes_to_slice` into the 5-byte
local buffer copies `min (buf.length) 5` bytes and returns that count,
so the guard rejects exactly buffers shorter than 5 bytes or whose
first 5 bytes differ from `b"write"`. -/
def PipeScheme.kdup (P : Nat → Option Pipe) (old_id : Nat) (buf : List Nat) :
    PipeRes (Except KError Nat) :=
  let d := from_raw_id old_id
  if d.1 = true then
    { result := .error .EBADF, pipes := P, events := [], notified := [] }
  else if buf.length < 5 ∨ buf.take 5 ≠ writeLit then
    { result := .error .EINVAL, pipes := P, events := [], notified := [] }
  else
    match P d.2 with
    | none => { result := .error .EBADF, pipes := P, events := [], notified := [] }
    | some pipe =>
      if pipe.has_run_dup = true then
        { result := .error .EBADF, pipes := P, events := [], notified := [] }
      else
        { result := .ok (d.2 ||| WRITE_NOT_READ_BIT),
          pipes := fun k => if k = d.2 then some { pipe with has_run_dup := true } else P k,
          events := [], notified := [] }

/-- `PipeScheme::close`: marks this side dead, wakes and notifies the
opposite side, and removes the record iff the other side is already dead. -/
def PipeScheme.close (P : Nat → Option Pipe) (id : Nat) : PipeRes (Except KError Nat) :=
  let d := from_raw_id id
  match P d.2 with
  | none => { result := .error .EBADF, pipes := P, events := [], notified := [] }
  | some pipe =>
    if d.1 = true then
      let can_remove := pipe.reader_is_alive = false
      { result := .ok 0,
        pipes := fun k => if k = d.2 then
            (if can_remove then none else some { pipe with writer_is_alive := false })
          else P k,
        events := [(d.2, EVENT_READ)], notified := [.readCond] }
    else
      let can_remove := pipe.writer_is_alive = false
      { result := .ok 0,
        pipes := fun k => if k = d.2 then
            (if can_remove then none else some { pipe with reader_is_alive := false })
          else P k,
        events := [(d.2 ||| WRITE_NOT_READ_BIT, EVENT_WRITE)], notified := [.writeCond] }

def F_GETFL : Nat := 3
def F_SETFL : Nat := 4

/-- `PipeScheme::fcntl` on the flag word of the addressed side. -/
def PipeScheme.fcntl (P : Nat → Option Pipe) (id cmd arg : Nat) :
    PipeRes (Except KError Nat) :=
  let d := from_raw_id id
  match P d.2 with
  | none => { result := .error .EBADF, pipes := P, events := [], notified := [] }
  | some pipe =>
    if cmd = F_GETFL then
      { result := .ok (if d.1 then pipe.write_flags else pipe.read_flags),
        pipes := P, events := [], notified := [] }
    else if cmd = F_SETFL then
      let pipe' := if d.1 then { pipe with write_flags := arg &&& (2 ^ 64 - 1 - O_ACCMODE) }
                   else { pipe with read_flags := arg &&& (2 ^ 64 - 1 - O_ACCMODE) }
      { result := .ok 0, pipes := fun k => if k = d.2 then some pipe' else P k,
        events := [], notified := [] }
    else
      { result := .error .EINVAL, pipes := P, events := [], notified := [] }

/-- `PipeScheme::fevent`. -/
def PipeScheme.fevent (P : Nat → Option Pipe) (id flags : Nat) : Except KError Nat :=
  let d := from_raw_id id
  match P d.2 with
  | none => .error .EBADF
  | some pipe =>
    if d.1 = true ∧ flags = EVENT_WRITE then
      (if pipe.queue.length ≥ MAX_QUEUE_SIZE then .ok 0 else .ok EVENT_WRITE)
    else if flags = EVENT_READ then
      (if pipe.queue.length = 0 then .ok 0 else .ok EVENT_READ)
    else .error .EBADF

/-- `PipeScheme::kopen`: only the empty path (after stripping leading
slashes) opens a new pipe; the read id is returned. -/
def PipeScheme.kopen (P : Nat → Option Pipe) (nextId : Nat) (pathEmpty : Bool) (flags : Nat) :
    Except KError (Nat × (Nat → Option Pipe)) :=
  if pathEmpty = false then .error .ENOENT
  else .ok (nextId, fun k => if k = nextId then some (Pipe.new flags) else P k)

/-! ## IRQ scheme (`src/scheme/irq.rs`)

`COUNTS` is the per-vector arrival counter array, `HANDLES` the fd map,
and the reservation table (`is_reserved` / `set_reserved`, defined in
the arch interrupt module outside this slice) is carried as a
`cpu → vector → Bool` table in the state.  External inputs
(`bsp_apic_id`, `available_irqs_iter`, the CPU list) form the
environment. -/

def BASE_IRQ_COUNT : Nat := 16
def TOTAL_IRQ_COUNT : Nat := 224
def WORD_SIZE : Nat := 8

def irq_to_vector (irq : Nat) : Nat := irq + 32

structure IrqEnv where
  bspApicId : Option Nat
  cpus : List Nat
  availableIrqsIter : Nat → List Nat

inductive IrqHandle where
  | Irq (ack : Nat) (irq : Nat)
  | Avail (cpu : Nat) (data : List Char) (offset : Nat)
  | TopLevel (data : List Char) (offset : Nat)
  | Bsp
deriving DecidableEq, Repr

structure IrqState where
  counts : Nat → Nat
  reserved : Nat → Nat → Bool
  handles : List (Nat × IrqHandle)
  nextFd : Nat

/-- In-place update of the handle stored under an fd (the `AtomicUsize`
ack field of an `Irq` handle is mutated through the map in the source). -/
def setHandle (hs : List (Nat × IrqHandle)) (fd : Nat) (h : IrqHandle) :
    List (Nat × IrqHandle) :=
  hs.map (fun p => if p.1 = fd then (fd, h) else p)

/-- `irq_trigger(vec)`: increment `COUNTS[vec]`, then post `EVENT_READ`
for every handle whose kind is `Irq { irq = vec }`; the returned list
holds the fds the event was posted to. -/
def irq_trigger (st : IrqState) (irq : Nat) : IrqState × List Nat :=
  let st' := { st with counts := fun i => if i = irq then st.counts i + 1 else st.counts i }
  (st', (st'.handles.filter (fun p =>
      match p.2 with
      | .Irq _ hirq => hirq == irq
      | _ => false)).map (fun p => p.1))

/-! String helpers mirroring the `str` operations used by `open`. -/

def trimLeadingSlashes : List Char → List Char
  | [] => []
  | c :: rest => if c = '/' then trimLeadingSlashes rest else c :: rest

def trimTrailingSlashes (l : List Char) : List Char :=
  (trimLeadingSlashes l.reverse).reverse

/-- Accumulate decimal digits; any non-digit rejects the string. -/
def parseDecDigits (l : List Char) : Option Nat :=
  l.foldl (fun acc c =>
    match acc with
    | none => none
    | some v => if c.isDigit then some (v * 10 + (c.toNat - 48)) else none) (some 0)

/-- `u8::from_str`: an optional leading plus sign, then one or more
decimal digits, with the value required to fit in a `u8`. -/
def parseU8 (l : List Char) : Option Nat :=
  let l' := match l with
    | '+' :: rest => rest
    | _ => l
  match l' with
  | [] => none
  | _ =>
    match parseDecDigits l' with
    | none => none
    | some v => if v ≤ 255 then some v else none

def hexVal (c : Char) : Option Nat :=
  if c.isDigit then some (c.toNat - 48)
  else if 'a' ≤ c ∧ c ≤ 'f' then some (c.toNat - 87)
  else if 'A' ≤ c ∧ c ≤ 'F' then some (c.toNat - 55)
  else none

def parseHexDigits (l : List Char) : Option Nat :=
  l.foldl (fun acc c =>
    match acc, hexVal c with
    | some v, some d => some (v * 16 + d)
    | _, _ => none) (some 0)

/-- `u8::from_str_radix(.., 16)` on the two-character CPU field. -/
def parseHexU8 (l : List Char) : Option Nat :=
  let l' := match l with
    | '+' :: rest => rest
    | _ => l
  match l' with
  | [] => none
  | _ =>
    match parseHexDigits l' with
    | none => none
    | some v => if v ≤ 255 then some v else none

def hexDigitChar (n : Nat) : Char :=
  if n < 10 then Char.ofNat (48 + n) else Char.ofNat (87 + n)

/-- Formatting of a `u8` CPU id with `{:02x}`. -/
def fmtHex2 (n : Nat) : List Char :=
  if n < 16 then ['0', hexDigitChar n] else [hexDigitChar (n / 16), hexDigitChar (n % 16)]

/-- The root directory listing: one `cpu-XX` line per CPU, then `bsp`
when a bootstrap APIC id is known. -/
def topLevelListing (env : IrqEnv) : List Char :=
  (env.cpus.map (fun cpu => ['c', 'p', 'u', '-'] ++ fmtHex2 cpu ++ ['\n'])).flatten
    ++ (if env.bspApicId.isSome then ['b', 's', 'p', '\n'] else [])

/-- The `cpu-XX` directory listing: available vectors as decimal IRQ
numbers, skipping the legacy 0..=15 range on the BSP.  The `u8`
subtraction `vector - 32` is modelled by truncated `Nat` subtraction. -/
def availListing (env : IrqEnv) (cpu_id : Nat) : List Char :=
  ((env.availableIrqsIter cpu_id).map (fun vector =>
    let irq := vector - 32
    if env.bspApicId = some cpu_id ∧ irq < BASE_IRQ_COUNT then []
    else Nat.toDigits 10 irq ++ ['\n'])).flatten

/-- `IrqScheme::open_ext_irq`.  Returns the handle and the updated
reservation table. -/
def IrqScheme.openExtIrq (env : IrqEnv) (flags cpu_id : Nat) (path_str : List Char)
    (res : Nat → Nat → Bool) : Except KError (IrqHandle × (Nat → Nat → Bool)) :=
  match parseU8 path_str with
  | none => .error .ENOENT
  | some irq_number =>
    if irq_number < BASE_IRQ_COUNT ∧ env.bspApicId = some cpu_id then
      .ok (.Irq 0 irq_number, res)
    else if irq_number < TOTAL_IRQ_COUNT then
      if flags &&& O_CREAT = 0 ∧ flags &&& O_STAT = 0 then
        .error .EINVAL
      else if flags &&& O_STAT = 0 then
        if res cpu_id (irq_to_vector irq_number) = true then
          .error .EEXIST
        else
          .ok (.Irq 0 irq_number,
               fun c v => if c = cpu_id ∧ v = irq_to_vector irq_number then true else res c v)
      else
        .ok (.Irq 0 irq_number, res)
    else
      .error .ENOENT

/-- `IrqScheme::open`.  The outer `Option` is `none` exactly on the
slice-index panic a too-short `cpu-` path causes in the source
(`&path_str[..2]` with fewer than two remaining characters). -/
def IrqScheme.open (env : IrqEnv) (st : IrqState) (path : List Char) (flags uid _gid : Nat) :
    Option (Except KError (Nat × IrqState)) :=
  if uid ≠ 0 then some (.error .EACCES)
  else
    let path_str := trimLeadingSlashes path
    let hres : Option (Except KError (IrqHandle × (Nat → Nat → Bool))) :=
      if path_str = [] then
        if flags &&& O_DIRECTORY = 0 ∧ flags &&& O_STAT = 0 then some (.error .EISDIR)
        else some (.ok (.TopLevel (topLevelListing env) 0, st.reserved))
      else if path_str = ['b', 's', 'p'] then
        if env.bspApicId = none then some (.error .ENOENT)
        else some (.ok (.Bsp, st.reserved))
      else if path_str.take 4 = ['c', 'p', 'u', '-'] then
        let rest := path_str.drop 4
        if rest.length < 2 then none
        else
          match parseHexU8 (rest.take 2) with
          | none => some (.error .ENOENT)
          | some cpu_id =>
            let tl := trimTrailingSlashes (rest.drop 2)
            if tl = [] then
              some (.ok (.Avail cpu_id (availListing env cpu_id) 0, st.reserved))
            else if tl.take 1 = ['/'] then
              some (IrqScheme.openExtIrq env flags cpu_id (tl.drop 1) st.reserved)
            else
              some (.error .ENOENT)
      else
        match parseU8 path_str with
        | some n =>
          if n < BASE_IRQ_COUNT then some (.ok (.Irq 0 n, st.reserved))
          else some (.error .ENOENT)
        | none => some (.error .ENOENT)
    match hres with
    | none => none
    | some (.error e) => some (.error e)
    | some (.ok (h, res')) =>
      let fd := st.nextFd
      some (.ok (fd,
        { st with reserved := res', handles := (fd, h) :: st.handles, nextFd := fd + 1 }))

/-- `IrqScheme::close`: only handles with `irq > BASE_IRQ_COUNT` release
a reservation, and the release is issued for CPU 0 unconditionally. -/
def IrqScheme.close (st : IrqState) (id : Nat) : Except KError (Nat × IrqState) :=
  match st.handles.lookup id with
  | none => .error .EBADF
  | some (.Irq _ handle_irq) =>
    if handle_irq > BASE_IRQ_COUNT then
      .ok (0, { st with reserved :=
        fun c v => if c = 0 ∧ v = irq_to_vector handle_irq then false else st.reserved c v })
    else
      .ok (0, st)
  | some _ => .ok (0, st)

/-- Data copied to the user buffer by `IrqScheme::kread`. -/
inductive IrqReadData where
  | word (w : Nat)
  | bytes (bs : List Char)
  | nothing
deriving DecidableEq, Repr

/-- `IrqScheme::kread`: an `Irq` handle yields the current count as a
machine word iff it differs from the stored ack; `Bsp` yields the BSP
APIC id; directory handles copy from their listing at the saved offset. -/
def IrqScheme.kread (env : IrqEnv) (st : IrqState) (file : Nat) (buflen : Nat) :
    Except KError (Nat × IrqReadData × IrqState) :=
  match st.handles.lookup file with
  | none => .error .EBADF
  | some (.Irq ack irq) =>
    if buflen ≥ WORD_SIZE then
      let current := st.counts irq
      if ack ≠ current then .ok (WORD_SIZE, .word current, st)
      else .ok (0, .nothing, st)
    else .error .EINVAL
  | some .Bsp =>
    if buflen < WORD_SIZE then .error .EINVAL
    else
      match env.bspApicId with
      | some b => .ok (WORD_SIZE, .word b, st)
      | none => .error .EBADFD
  | some (.Avail cpu data offset) =>
    let avail := data.drop offset
    let n := min buflen avail.length
    .ok (n, .bytes (avail.take n),
         { st with handles := setHandle st.handles file (.Avail cpu data (offset + n)) })
  | some (.TopLevel data offset) =>
    let avail := data.drop offset
    let n := min buflen avail.length
    .ok (n, .bytes (avail.take n),
         { st with handles := setHandle st.handles file (.TopLevel data (offset + n)) })

/-- `IrqScheme::kwrite` on an `Irq` handle: a machine word equal to the
current count stores it into `ack` and acknowledges the vector (the
returned flag records the `acknowledge` call); any other word is a
0-byte no-op. -/
def IrqScheme.kwrite (st : IrqState) (file : Nat) (buflen : Nat) (word : Nat) :
    Except KError (Nat × IrqState × Bool) :=
  match st.handles.lookup file with
  | none => .error .EBADF
  | some (.Irq _ handle_irq) =>
    if buflen ≥ WORD_SIZE then
      let current := st.counts handle_irq
      if word = current then
        .ok (WORD_SIZE, { st with handles := setHandle st.handles file (.Irq word handle_irq) }, true)
      else
        .ok (0, st, false)
    else .error .EINVAL
  | some _ => .error .EBADF

/-! ## Scheduler: `update_runnable` (`src/context/switch.rs`)

The context fields relevant to `update_runnable` are carried directly;
`arch`, `kfx` and the kernel stack contents are opaque words.  Ambient
kernel state (`crate::cpu_id()`, `time::monotonic()`) and the external
ptrace accessors (`ptrace::regs_for` and the singlestep flag, defined
outside this slice) form the environment.  The result is `none` exactly
on the `expect`/`panic!` paths of the source (`ksig_restore` set
without a complete `ksig`, or without a kernel stack). -/

inductive CStatus where
  | Runnable
  | Blocked
  | Stopped
  | Exited
deriving DecidableEq, Repr

structure Context where
  id : Nat
  running : Bool
  ptrace_stop : Bool
  cpu_id : Option Nat
  sched_affinity : Option Nat
  ksig_restore : Bool
  ksig : Option (Nat × Nat × Option Nat × Nat)
  arch : Nat
  kfx : Nat
  kstack : Option Nat
  status : CStatus
  pending : List Nat
  wake : Option Nat
deriving DecidableEq, Repr

structure SwitchEnv where
  currentCpu : Nat
  now : Nat
  regsSinglestep : Nat → Option Bool
  setSinglestep : Bool → Nat → Nat

/-- Modelled from the spec: `Context::unblock` lives in `context/mod.rs`,
which is not part of this slice; per the spec it "unblocks the context",
making a blocked context runnable. -/
def Context.unblock (c : Context) : Context :=
  if c.status = .Blocked then { c with status := .Runnable } else c

/-- The affinity test `context.sched_affinity.map_or(true, |id| id == crate::cpu_id())`. -/
def affinityOk (c : Context) (env : SwitchEnv) : Bool :=
  match c.sched_affinity with
  | none => true
  | some i => i == env.currentCpu

/-- The take-ownership step: claim an unowned context when the affinity
allows it. -/
def claimStep (c : Context) (env : SwitchEnv) (cpu_id : Nat) : Context :=
  if c.cpu_id = none ∧ affinityOk c env = true
  then { c with cpu_id := some cpu_id } else c

/-- Completeness of the saved signal state: `ksig` present with a saved
kernel stack, and a live kernel stack to restore into.  The source
panics on `ksig_restore` without this. -/
def ksigComplete (c : Context) : Bool :=
  match c.ksig, c.kstack with
  | some (_, _, some _, _), some _ => true
  | _, _ => false

/-- The signal-restore block: when `ksig_restore` is set, copy the
saved `arch`/`kfx`/`kstack` back into the live slots (preserving the
singlestep flag through the external ptrace accessors), clear the
handshake, and unblock.  `none` models the `expect`/`panic!` paths
(`ksig` absent, the saved kstack absent, or no live kstack). -/
def signalRestoreStep (env : SwitchEnv) (c1 : Context) : Option Context :=
  if c1.ksig_restore then
    match c1.ksig, c1.kstack with
    | some (sarch, skfx, some skst, _sig), some _ =>
      let was_singlestep := (env.regsSinglestep c1.arch).getD false
      let c2 := { c1 with
        arch := sarch, kfx := skfx, kstack := some skst,
        ksig := none, ksig_restore := false }
      let c3 := { c2 with arch :=
        match env.regsSinglestep c2.arch with
        | some _ => env.setSinglestep was_singlestep c2.arch
        | none => c2.arch }
      some c3.unblock
    | some (_, _, none, _), some _ => none
    | none, _ => none
    | some _, none => none
  else some c1

/-- The final block of `update_runnable`: unblock on pending signals,
wake from sleep when the deadline is reached, and report whether the
context is now runnable. -/
def runnableTail (env : SwitchEnv) (c2 : Context) : Context × Bool :=
  let c3 := if c2.status = .Blocked ∧ c2.pending ≠ [] then c2.unblock else c2
  let c4 :=
    if c3.status = .Blocked ∧ c3.wake.isSome then
      (if env.now ≥ c3.wake.getD 0 then ({ c3 with wake := none }).unblock else c3)
    else c3
  (c4, decide (c4.status = .Runnable))

/-- `update_runnable(context, cpu_id)`, returning the updated context
together with the boolean result. -/
def update_runnable (env : SwitchEnv) (c : Context) (cpu_id : Nat) :
    Option (Context × Bool) :=
  if c.running then some (c, false)
  else if c.ptrace_stop then some (c, false)
  else
    let c1 := claimStep c env cpu_id
    if c1.cpu_id ≠ some cpu_id then some (c1, false)
    else
      match signalRestoreStep env c1 with
      | none => none
      | some c2 => some (runnableTail env c2)

/-! Concrete fixtures for evaluating the IRQ scheme at the reservation
failure input: a single-CPU machine whose BSP has APIC id 0, an empty
reservation table, and the paths `cpu-00/16`, `cpu-00/17` and
`cpu-01/20`. -/

def irqEnvC4 : IrqEnv :=
  { bspApicId := some 0, cpus := [0, 1], availableIrqsIter := fun _ => [] }

def irqStC4 : IrqState :=
  { counts := fun _ => 0, reserved := fun _ _ => false, handles := [], nextFd := 0 }

def c4Path16 : List Char := ['c', 'p', 'u', '-', '0', '0', '/', '1', '6']
def c4Path17 : List Char := ['c', 'p', 'u', '-', '0', '0', '/', '1', '7']
def c4Path20 : List Char := ['c', 'p', 'u', '-', '0', '1', '/', '2', '0']

/-- State after opening the given path with O_CREAT as root on the
empty fixture state. -/
def c4Open (path : List Char) : IrqState :=
  match IrqScheme.open irqEnvC4 irqStC4 path O_CREAT 0 0 with
  | some (.ok (_, st)) => st
  | _ => irqStC4

/-- State after closing fd 0 (the fd allotted by `c4Open`). -/
def c4Close (st : IrqState) : IrqState :=
  match IrqScheme.close st 0 with
  | .ok (_, st') => st'
  | _ => st

/-- Fixture for the IRQ ack-gate round trip: one `Irq` handle on vector
3 at fd 5, with two arrivals recorded and nothing acknowledged. -/
def irqStC6 : IrqState :=
  { counts := fun i => if i = 3 then 2 else 0, reserved := fun _ _ => false,
    handles := [(5, IrqHandle.Irq 0 3)], nextFd := 6 }

/-- Fixture environment for the scheduler claims. -/
def envC9 : SwitchEnv :=
  { currentCpu := 0, now := 10, regsSinglestep := fun _ => none,
    setSinglestep := fun _ a => a }

/-- Fixture context for the scheduler claims: blocked with one pending
signal, owned by CPU 0. -/
def ctxC9 : Context where
  id := 1
  running := false
  ptrace_stop := false
  cpu_id := some 0
  sched_affinity := none
  ksig_restore := false
  ksig := none
  arch := 0
  kfx := 0
  kstack := some 0
  status := .Blocked
  pending := [7]
  wake := none

/-! ## Helper lemmas -/

theorem testBit_div32_mod (rip j : Nat) :
    (rip / 2 ^ 32 % 2 ^ 32).testBit j = (decide (j < 32) && rip.testBit (32 + j)) := by
  rw [Nat.testBit_mod_two_pow]
  congr 1
  rw [← Nat.shiftRight_eq_div_pow, Nat.testBit_shiftRight]

theorem mask_testBit (j : Nat) :
    (0xFFFF8000 : Nat).testBit j = (decide (15 ≤ j) && decide (j < 32)) := by
  rcases Nat.lt_or_ge j 32 with hj | hj
  · interval_cases j <;> decide
  · have h2 : (0xFFFF8000 : Nat) < 2 ^ j :=
      lt_of_lt_of_le (by norm_num) (Nat.pow_le_pow_right (by norm_num) hj)
    have h3 : ¬ j < 32 := by omega
    simp [Nat.testBit_lt_two_pow h2, h3]

theorem canonicalTest_eq_zero_iff (rip : Nat) :
    canonicalTest rip = 0 ↔ ∀ i, 47 ≤ i → i ≤ 63 → rip.testBit i = false := by
  unfold canonicalTest SYSRET_RIP_MASK
  constructor
  · intro h0 i h47 h63
    have hb : ((rip / 2 ^ 32 % 2 ^ 32) &&& 0xFFFF8000).testBit (i - 32) = false := by
      rw [h0]; exact Nat.zero_testBit _
    rw [Nat.testBit_land, testBit_div32_mod, mask_testBit] at hb
    have h1 : i - 32 < 32 := by omega
    have h2 : 15 ≤ i - 32 := by omega
    simp [h1, h2] at hb
    have h3 : 32 + (i - 32) = i := by omega
    rwa [h3] at hb
  · intro hb
    apply Nat.eq_of_testBit_eq
    intro j
    rw [Nat.testBit_land, testBit_div32_mod, mask_testBit, Nat.zero_testBit]
    by_cases hj32 : j < 32
    · by_cases hj15 : 15 ≤ j
      · have := hb (32 + j) (by omega) (by omega)
        simp [this]
      · simp [hj15]
    · simp [hj32]

theorem writeChunkFold (cs : List (List Nat)) (v : List Nat) (n : Nat) :
    cs.foldl (fun acc c => (acc.1 ++ c, acc.2 + c.length)) (v, n) =
      (v ++ cs.flatten, n + cs.flatten.length) := by
  induction cs generalizing v n with
  | nil => simp
  | cons c cs ih =>
    simp [List.foldl_cons, ih, List.append_assoc, Nat.add_assoc]

theorem writeChunkLoop_eq (v : List Nat) (cs : List (List Nat)) :
    writeChunkLoop v cs = (v ++ cs.flatten, cs.flatten.length) := by
  simpa [writeChunkLoop] using writeChunkFold cs v 0

theorem chunksOf_flatten (l : List Nat) : (chunksOf l).flatten = l := by
  induction l using chunksOf.induct with
  | case1 => simp [chunksOf]
  | case2 x rest ih =>
    rw [chunksOf]
    simp only [List.flatten_cons, ih, List.take_append_drop]

/-- Evaluated form of one pass of the `kwrite` loop body. -/
theorem writeOnce_eval (p : Pipe) (key : Nat) (buf : List Nat) :
    p.writeOnce key buf =
      (let w := min (MAX_QUEUE_SIZE - p.queue.length) buf.length
       if 0 < w then
         { result := .ok w, pipe := { p with queue := p.queue ++ buf.take w },
           events := [(key, EVENT_READ)], notified := [.readCond] }
       else if buf = [] then
         { result := .ok 0, pipe := p, events := [], notified := [] }
       else if p.reader_is_alive = false then
         { result := .err .EPIPE, pipe := p, events := [], notified := [] }
       else if p.write_flags &&& O_NONBLOCK = O_NONBLOCK then
         { result := .err .EAGAIN, pipe := p, events := [], notified := [] }
       else
         { result := .blocked .writeCond, pipe := p, events := [], notified := [] }) := by
  unfold Pipe.writeOnce
  have hlen : (buf.take (min (MAX_QUEUE_SIZE - p.queue.length) buf.length)).length
      = min (MAX_QUEUE_SIZE - p.queue.length) buf.length := by
    rw [List.length_take]
    exact Nat.min_eq_left (Nat.min_le_right _ _)
  simp only [writeChunkLoop_eq, chunksOf_flatten, hlen, gt_iff_lt]

/-! ## Claim theorems -/

/-- C1: on the x86-64 syscall return path, `sysretq` is executed only
when bits 47..=63 of the saved userspace return address (the pushed
RCX) are all zero; if any of those forbidden bits is set, the gate
takes the slow `iretq` path, which zeroes RCX and R11 and executes
`swapgs` before returning, so a sysret never executes with a
non-canonical return RIP. -/
theorem syscall_gate_sysret_canonical (rip rflags : Nat) (h : rip < 2 ^ 64) :
    ((syscallReturnPath rip rflags).usesSysret = true ↔
      ∀ i, 47 ≤ i → i ≤ 63 → rip.testBit i = false) ∧
    ((syscallReturnPath rip rflags).usesSysret = false →
      (syscallReturnPath rip rflags).rcx = 0 ∧
      (syscallReturnPath rip rflags).r11 = 0 ∧
      (syscallReturnPath rip rflags).didSwapgs = true) := by
  unfold syscallReturnPath
  by_cases h0 : canonicalTest rip = 0 <;> simp [h0]
  · exact (canonicalTest_eq_zero_iff rip).mp h0
  · have hall : ¬ ∀ i, 47 ≤ i → i ≤ 63 → rip.testBit i = false :=
      fun hall => h0 ((canonicalTest_eq_zero_iff rip).mpr hall)
    push_neg at hall
    obtain ⟨i, h47, h63, hbit⟩ := hall
    exact ⟨i, h47, h63, by simpa using hbit⟩

theorem syscall_gate_sysret_canonical_witness :
    (0x7FFE00001000 : Nat) < 2 ^ 64 ∧
    ((((syscallReturnPath 0x7FFE00001000 0x202).usesSysret = true) ↔
        ∀ i, 47 ≤ i → i ≤ 63 → (0x7FFE00001000 : Nat).testBit i = false) ∧
      (((syscallReturnPath 0x7FFE00001000 0x202).usesSysret = false) →
        (syscallReturnPath 0x7FFE00001000 0x202).rcx = 0 ∧
        (syscallReturnPath 0x7FFE00001000 0x202).r11 = 0 ∧
        (syscallReturnPath 0x7FFE00001000 0x202).didSwapgs = true)) :=
  ⟨by norm_num, syscall_gate_sysret_canonical 0x7FFE00001000 0x202 (by norm_num)⟩

/-- C2 (amended): for every write on the write side of a pipe with a
non-empty user buffer, the write returns EPIPE iff the queue is full
(no byte can be enqueued) and the reader side is closed; with a full
queue and a live reader it returns EAGAIN when O_NONBLOCK is set on the
write side and otherwise blocks on write_condition; with room in the
queue it appends `min (65536 - |queue|) |buf|` bytes and returns that
count regardless of reader liveness. -/
theorem pipe_kwrite_epipe_spec (P : Nat → Option Pipe) (id : Nat) (buf : List Nat)
    (pipe : Pipe) (hw : (from_raw_id id).1 = true)
    (hp : P (from_raw_id id).2 = some pipe) (hb : buf ≠ []) :
    ((PipeScheme.kwrite P id buf).result = .err .EPIPE ↔
      MAX_QUEUE_SIZE ≤ pipe.queue.length ∧ pipe.reader_is_alive = false) ∧
    (MAX_QUEUE_SIZE ≤ pipe.queue.length → pipe.reader_is_alive = true →
      pipe.write_flags &&& O_NONBLOCK = O_NONBLOCK →
      (PipeScheme.kwrite P id buf).result = .err .EAGAIN) ∧
    (MAX_QUEUE_SIZE ≤ pipe.queue.length → pipe.reader_is_alive = true →
      pipe.write_flags &&& O_NONBLOCK ≠ O_NONBLOCK →
      (PipeScheme.kwrite P id buf).result = .blocked .writeCond) ∧
    (pipe.queue.length < MAX_QUEUE_SIZE →
      (PipeScheme.kwrite P id buf).result =
        .ok (min (MAX_QUEUE_SIZE - pipe.queue.length) buf.length)) := by
  have hres : (PipeScheme.kwrite P id buf).result = (pipe.writeOnce (from_raw_id id).2 buf).result := by
    simp [PipeScheme.kwrite, hw, hp]
  rw [hres, writeOnce_eval]
  have hbuflen : 0 < buf.length := List.length_pos.mpr hb
  by_cases hfull : MAX_QUEUE_SIZE ≤ pipe.queue.length
  · have hw0 : min (MAX_QUEUE_SIZE - pipe.queue.length) buf.length = 0 := by omega
    simp only [hw0, Nat.lt_irrefl, if_false, hb]
    by_cases halive : pipe.reader_is_alive = false
    · simp [halive, hb, hfull]
    · have halive' : pipe.reader_is_alive = true := by
        cases h : pipe.reader_is_alive
        · exact absurd h halive
        · rfl
      by_cases hnb : pipe.write_flags &&& O_NONBLOCK = O_NONBLOCK
      · simp [halive', hnb, hb, hfull]
      · simp [halive', hnb, hb, hfull]
  · have hwpos : 0 < min (MAX_QUEUE_SIZE - pipe.queue.length) buf.length := by omega
    simp only [hwpos, if_true, hb]
    simp [hfull]

theorem pipe_kwrite_epipe_counterexample :
    (PipeScheme.kwrite
        (fun k => if k = 1 then some { Pipe.new 0 with reader_is_alive := false } else none)
        (1 ||| WRITE_NOT_READ_BIT) [42]).result = .ok 1 ∧
    ({ Pipe.new 0 with reader_is_alive := false } : Pipe).reader_is_alive = false := by
  constructor
  · have h1 : (from_raw_id (1 ||| WRITE_NOT_READ_BIT)).1 = true := by decide
    have h2 : (from_raw_id (1 ||| WRITE_NOT_READ_BIT)).2 = 1 := by decide
    simp [PipeScheme.kwrite, h1, h2, writeOnce_eval, Pipe.new, MAX_QUEUE_SIZE]
  · rfl

theorem pipe_kwrite_epipe_spec_witness :
    ((from_raw_id (1 ||| WRITE_NOT_READ_BIT)).1 = true ∧
     (fun k => if k = 1 then some (Pipe.new 0) else none) (from_raw_id (1 ||| WRITE_NOT_READ_BIT)).2
        = some (Pipe.new 0) ∧
     ([42] : List Nat) ≠ []) ∧
    (((PipeScheme.kwrite (fun k => if k = 1 then some (Pipe.new 0) else none)
          (1 ||| WRITE_NOT_READ_BIT) [42]).result = .err .EPIPE ↔
        MAX_QUEUE_SIZE ≤ (Pipe.new 0).queue.length ∧ (Pipe.new 0).reader_is_alive = false) ∧
      (MAX_QUEUE_SIZE ≤ (Pipe.new 0).queue.length → (Pipe.new 0).reader_is_alive = true →
        (Pipe.new 0).write_flags &&& O_NONBLOCK = O_NONBLOCK →
        (PipeScheme.kwrite (fun k => if k = 1 then some (Pipe.new 0) else none)
            (1 ||| WRITE_NOT_READ_BIT) [42]).result = .err .EAGAIN) ∧
      (MAX_QUEUE_SIZE ≤ (Pipe.new 0).queue.length → (Pipe.new 0).reader_is_alive = true →
        (Pipe.new 0).write_flags &&& O_NONBLOCK ≠ O_NONBLOCK →
        (PipeScheme.kwrite (fun k => if k = 1 then some (Pipe.new 0) else none)
            (1 ||| WRITE_NOT_READ_BIT) [42]).result = .blocked .writeCond) ∧
      ((Pipe.new 0).queue.length < MAX_QUEUE_SIZE →
        (PipeScheme.kwrite (fun k => if k = 1 then some (Pipe.new 0) else none)
            (1 ||| WRITE_NOT_READ_BIT) [42]).result =
          .ok (min (MAX_QUEUE_SIZE - (Pipe.new 0).queue.length) ([42] : List Nat).length))) :=
  ⟨⟨by decide, by decide, by decide⟩,
    pipe_kwrite_epipe_spec _ _ _ _ (by decide) (by decide) (by decide)⟩

/-- C3 (amended): for every read on the read side of a pipe with a
non-empty user buffer, the read returns 0 bytes (EOF) iff the pipe's
queue is empty and the writer side is closed. -/
theorem pipe_kread_eof_spec (P : Nat → Option Pipe) (id buflen : Nat) (pipe : Pipe)
    (hr : (from_raw_id id).1 = false) (hp : P (from_raw_id id).2 = some pipe)
    (hb : buflen ≠ 0) :
    (PipeScheme.kread P id buflen).result = .ok [] ↔
      pipe.queue = [] ∧ pipe.writer_is_alive = false := by
  have hres : (PipeScheme.kread P id buflen).result
      = (pipe.readOnce (from_raw_id id).2 buflen).result := by
    simp [PipeScheme.kread, hr, hp]
  rw [hres]
  by_cases hq : pipe.queue = []
  · simp only [Pipe.readOnce, hq, List.length_nil, Nat.min_zero, Nat.lt_irrefl, if_false,
      List.take_nil, List.drop_nil, hb]
    by_cases halive : pipe.writer_is_alive = false
    · simp [halive, hb]
    · have halive' : pipe.writer_is_alive = true := by
        cases h : pipe.writer_is_alive
        · exact absurd h halive
        · rfl
      by_cases hnb : pipe.read_flags &&& O_NONBLOCK = O_NONBLOCK
      · simp [halive', hnb, hb]
      · simp [halive', hnb, hb]
  · have hpos : 0 < min buflen pipe.queue.length := by
      have h1 : 0 < pipe.queue.length := List.length_pos.mpr hq
      omega
    simp only [Pipe.readOnce, hpos, if_true, hq]
    simp [List.take_eq_nil_iff, hq]
    omega

theorem pipe_kread_eof_counterexample :
    (PipeScheme.kread (fun k => if k = 1 then some (Pipe.new 0) else none) 1 0).result
        = .ok [] ∧
    (Pipe.new 0).writer_is_alive = true := by
  decide

theorem pipe_kread_eof_spec_witness :
    ((from_raw_id 1).1 = false ∧
     (fun k => if k = 1 then some (Pipe.new 0) else none) (from_raw_id 1).2 = some (Pipe.new 0) ∧
     (4 : Nat) ≠ 0) ∧
    ((PipeScheme.kread (fun k => if k = 1 then some (Pipe.new 0) else none) 1 4).result = .ok [] ↔
      (Pipe.new 0).queue = [] ∧ (Pipe.new 0).writer_is_alive = false) :=
  ⟨⟨by decide, by decide, by decide⟩,
    pipe_kread_eof_spec _ _ _ _ (by decide) (by decide) (by decide)⟩

theorem writeOnce_queue_len (p : Pipe) (key : Nat) (buf : List Nat) :
    (p.writeOnce key buf).pipe.queue.length
        ≤ p.queue.length + (MAX_QUEUE_SIZE - p.queue.length) ∧
    (p.queue.length ≤ MAX_QUEUE_SIZE →
      (p.writeOnce key buf).pipe.queue.length ≤ MAX_QUEUE_SIZE) := by
  rw [writeOnce_eval]
  by_cases hw : 0 < min (MAX_QUEUE_SIZE - p.queue.length) buf.length
  · have hlen : (buf.take (min (MAX_QUEUE_SIZE - p.queue.length) buf.length)).length
        = min (MAX_QUEUE_SIZE - p.queue.length) buf.length := by
      rw [List.length_take]
      exact Nat.min_eq_left (Nat.min_le_right _ _)
    simp only [hw, if_true, List.length_append, hlen]
    have h1 := Nat.min_le_left (MAX_QUEUE_SIZE - p.queue.length) buf.length
    omega
  · simp only [hw, if_false]
    have hp : ∀ q : PipeStepRes WriteOutcome, q.pipe = p →
        q.pipe.queue.length ≤ p.queue.length + (MAX_QUEUE_SIZE - p.queue.length) ∧
        (p.queue.length ≤ MAX_QUEUE_SIZE → q.pipe.queue.length ≤ MAX_QUEUE_SIZE) := by
      intro q hq
      rw [hq]
      exact ⟨Nat.le_add_right _ _, fun h => h⟩
    split
    · exact hp _ rfl
    · split
      · exact hp _ rfl
      · split
        · exact hp _ rfl
        · exact hp _ rfl


theorem readOnce_queue_len (p : Pipe) (key n : Nat) :
    (p.readOnce key n).pipe.queue.length ≤ p.queue.length := by
  unfold Pipe.readOnce
  by_cases hpos : min n p.queue.length > 0
  · simp only [hpos, if_true, List.length_drop]
    omega
  · simp only [hpos, if_false]
    split
    · exact Nat.le_refl _
    · split
      · exact Nat.le_refl _
      · split
        · exact Nat.le_refl _
        · exact Nat.le_refl _

theorem pipes_upd_bound (P : Nat → Option Pipe)
    (hinv : ∀ k pipe, P k = some pipe → pipe.queue.length ≤ MAX_QUEUE_SIZE)
    (key : Nat) (o : Option Pipe)
    (ho : ∀ q, o = some q → q.queue.length ≤ MAX_QUEUE_SIZE) :
    ∀ k pipe, (if k = key then o else P k) = some pipe →
      pipe.queue.length ≤ MAX_QUEUE_SIZE := by
  intro k pipe h
  by_cases hk : k = key
  · rw [if_pos hk] at h
    exact ho pipe h
  · rw [if_neg hk] at h
    exact hinv k pipe h

/-- C5: for every pipe, the byte queue never holds more than 65,536
bytes: a write appends at most `65536 - |queue|` bytes, a read only
shrinks the queue, and no other pipe operation (close, dup, fcntl,
open) grows any queue, so `|queue| ≤ 65536` is an invariant preserved
by all pipe operations. -/
theorem pipe_queue_bound_invariant (P : Nat → Option Pipe)
    (hinv : ∀ k pipe, P k = some pipe → pipe.queue.length ≤ MAX_QUEUE_SIZE) :
    (∀ p key buf, (Pipe.writeOnce p key buf).pipe.queue.length
        ≤ p.queue.length + (MAX_QUEUE_SIZE - p.queue.length)) ∧
    (∀ id buf k pipe, (PipeScheme.kwrite P id buf).pipes k = some pipe →
        pipe.queue.length ≤ MAX_QUEUE_SIZE) ∧
    (∀ id n k pipe, (PipeScheme.kread P id n).pipes k = some pipe →
        pipe.queue.length ≤ MAX_QUEUE_SIZE) ∧
    (∀ id k pipe, (PipeScheme.close P id).pipes k = some pipe →
        pipe.queue.length ≤ MAX_QUEUE_SIZE) ∧
    (∀ id buf k pipe, (PipeScheme.kdup P id buf).pipes k = some pipe →
        pipe.queue.length ≤ MAX_QUEUE_SIZE) ∧
    (∀ id cmd arg k pipe, (PipeScheme.fcntl P id cmd arg).pipes k = some pipe →
        pipe.queue.length ≤ MAX_QUEUE_SIZE) ∧
    (∀ nextId pe flags r k pipe, PipeScheme.kopen P nextId pe flags = .ok r →
        r.2 k = some pipe → pipe.queue.length ≤ MAX_QUEUE_SIZE) := by
  refine ⟨fun p key buf => (writeOnce_queue_len p key buf).1, ?_, ?_, ?_, ?_, ?_, ?_⟩
  · intro id buf k pipe h
    unfold PipeScheme.kwrite at h
    by_cases h1 : (from_raw_id id).1 = false
    · rw [if_pos h1] at h
      exact hinv k pipe h
    · rw [if_neg h1] at h
      cases hP : P (from_raw_id id).2 with
      | none =>
        simp only [hP] at h
        exact hinv k pipe h
      | some pipe0 =>
        simp only [hP] at h
        refine pipes_upd_bound P hinv (from_raw_id id).2 _ ?_ k pipe h
        intro q hq
        injection hq with hq'
        rw [← hq']
        exact (writeOnce_queue_len pipe0 (from_raw_id id).2 buf).2 (hinv _ _ hP)
  · intro id n k pipe h
    unfold PipeScheme.kread at h
    by_cases h1 : (from_raw_id id).1 = true
    · rw [if_pos h1] at h
      exact hinv k pipe h
    · rw [if_neg h1] at h
      cases hP : P (from_raw_id id).2 with
      | none =>
        simp only [hP] at h
        exact hinv k pipe h
      | some pipe0 =>
        simp only [hP] at h
        refine pipes_upd_bound P hinv (from_raw_id id).2 _ ?_ k pipe h
        intro q hq
        injection hq with hq'
        rw [← hq']
        exact le_trans (readOnce_queue_len pipe0 (from_raw_id id).2 n) (hinv _ _ hP)
  · intro id k pipe h
    unfold PipeScheme.close at h
    cases hP : P (from_raw_id id).2 with
    | none =>
      simp only [hP] at h
      exact hinv k pipe h
    | some pipe0 =>
      simp only [hP] at h
      by_cases hd : (from_raw_id id).1 = true
      · rw [if_pos hd] at h
        refine pipes_upd_bound P hinv (from_raw_id id).2 _ ?_ k pipe h
        intro q hq
        by_cases hcr : pipe0.reader_is_alive = false
        · rw [if_pos hcr] at hq
          cases hq
        · rw [if_neg hcr] at hq
          injection hq with hq'
          rw [← hq']
          exact hinv _ pipe0 hP
      · rw [if_neg hd] at h
        refine pipes_upd_bound P hinv (from_raw_id id).2 _ ?_ k pipe h
        intro q hq
        by_cases hcr : pipe0.writer_is_alive = false
        · rw [if_pos hcr] at hq
          cases hq
        · rw [if_neg hcr] at hq
          injection hq with hq'
          rw [← hq']
          exact hinv _ pipe0 hP
  · intro id buf k pipe h
    unfold PipeScheme.kdup at h
    by_cases h1 : (from_raw_id id).1 = true
    · rw [if_pos h1] at h
      exact hinv k pipe h
    · rw [if_neg h1] at h
      by_cases h2 : buf.length < 5 ∨ buf.take 5 ≠ writeLit
      · rw [if_pos h2] at h
        exact hinv k pipe h
      · rw [if_neg h2] at h
        cases hP : P (from_raw_id id).2 with
        | none =>
          simp only [hP] at h
          exact hinv k pipe h
        | some pipe0 =>
          simp only [hP] at h
          by_cases h3 : pipe0.has_run_dup = true
          · rw [if_pos h3] at h
            exact hinv k pipe h
          · rw [if_neg h3] at h
            refine pipes_upd_bound P hinv (from_raw_id id).2 _ ?_ k pipe h
            intro q hq
            injection hq with hq'
            rw [← hq']
            exact hinv _ pipe0 hP
  · intro id cmd arg k pipe h
    unfold PipeScheme.fcntl at h
    cases hP : P (from_raw_id id).2 with
    | none =>
      simp only [hP] at h
      exact hinv k pipe h
    | some pipe0 =>
      simp only [hP] at h
      by_cases hc1 : cmd = F_GETFL
      · rw [if_pos hc1] at h
        exact hinv k pipe h
      · rw [if_neg hc1] at h
        by_cases hc2 : cmd = F_SETFL
        · rw [if_pos hc2] at h
          refine pipes_upd_bound P hinv (from_raw_id id).2 _ ?_ k pipe h
          intro q hq
          by_cases hd : (from_raw_id id).1 = true
          · rw [if_pos hd] at hq
            injection hq with hq'
            rw [← hq']
            exact hinv _ pipe0 hP
          · rw [if_neg hd] at hq
            injection hq with hq'
            rw [← hq']
            exact hinv _ pipe0 hP
        · rw [if_neg hc2] at h
          exact hinv k pipe h
  · intro nextId pe flags r k pipe hok h
    unfold PipeScheme.kopen at hok
    by_cases h1 : pe = false
    · rw [if_pos h1] at hok
      cases hok
    · rw [if_neg h1] at hok
      cases hok
      refine pipes_upd_bound P hinv nextId _ ?_ k pipe h
      intro q hq
      injection hq with hq'
      rw [← hq']
      simp [Pipe.new, MAX_QUEUE_SIZE]

theorem pipe_queue_bound_invariant_witness :
    (∀ k pipe, (fun j => if j = 1 then some (Pipe.new 0) else none) k = some pipe →
        pipe.queue.length ≤ MAX_QUEUE_SIZE) ∧
    ((∀ p key buf, (Pipe.writeOnce p key buf).pipe.queue.length
        ≤ p.queue.length + (MAX_QUEUE_SIZE - p.queue.length)) ∧
     (∀ id buf k pipe,
        (PipeScheme.kwrite (fun j => if j = 1 then some (Pipe.new 0) else none) id buf).pipes k
          = some pipe → pipe.queue.length ≤ MAX_QUEUE_SIZE) ∧
     (∀ id n k pipe,
        (PipeScheme.kread (fun j => if j = 1 then some (Pipe.new 0) else none) id n).pipes k
          = some pipe → pipe.queue.length ≤ MAX_QUEUE_SIZE) ∧
     (∀ id k pipe,
        (PipeScheme.close (fun j => if j = 1 then some (Pipe.new 0) else none) id).pipes k
          = some pipe → pipe.queue.length ≤ MAX_QUEUE_SIZE) ∧
     (∀ id buf k pipe,
        (PipeScheme.kdup (fun j => if j = 1 then some (Pipe.new 0) else none) id buf).pipes k
          = some pipe → pipe.queue.length ≤ MAX_QUEUE_SIZE) ∧
     (∀ id cmd arg k pipe,
        (PipeScheme.fcntl (fun j => if j = 1 then some (Pipe.new 0) else none) id cmd arg).pipes k
          = some pipe → pipe.queue.length ≤ MAX_QUEUE_SIZE) ∧
     (∀ nextId pe flags r k pipe,
        PipeScheme.kopen (fun j => if j = 1 then some (Pipe.new 0) else none) nextId pe flags
          = .ok r → r.2 k = some pipe → pipe.queue.length ≤ MAX_QUEUE_SIZE)) := by
  have hinv0 : ∀ k pipe, (fun j => if j = 1 then some (Pipe.new 0) else none) k = some pipe →
      pipe.queue.length ≤ MAX_QUEUE_SIZE := by
    intro k pipe h
    by_cases hk : k = 1
    · simp only [hk, if_pos rfl] at h
      injection h with h'
      rw [← h']
      decide
    · simp only at h
      rw [if_neg hk] at h
      cases h
  exact ⟨hinv0, pipe_queue_bound_invariant _ hinv0⟩

/-- C7 (amended): dup of the read-side id of an existing pipe succeeds
exactly once per pipe, exactly when the 5-byte local buffer filled by
`copy_common_bytes_to_slice` holds `b"write"`, i.e. when the user
buffer is at least 5 bytes long and its first 5 bytes are `b"write"`
(bytes beyond the fifth are ignored); it returns the write-side id
(record key with the top bit set) and consumes the one-shot
`has_run_dup` flag.  Dup on a write-side id returns EBADF; a buffer
shorter than 5 bytes or whose first 5 bytes differ from `b"write"`
returns EINVAL; dup on a missing record or after the flag is consumed
returns EBADF. -/
theorem pipe_kdup_spec (P : Nat → Option Pipe) (id : Nat) (buf : List Nat) :
    ((from_raw_id id).1 = true → (PipeScheme.kdup P id buf).result = .error .EBADF) ∧
    ((from_raw_id id).1 = false → (buf.length < 5 ∨ buf.take 5 ≠ writeLit) →
      (PipeScheme.kdup P id buf).result = .error .EINVAL) ∧
    ((from_raw_id id).1 = false → ¬(buf.length < 5 ∨ buf.take 5 ≠ writeLit) →
      P (from_raw_id id).2 = none →
      (PipeScheme.kdup P id buf).result = .error .EBADF) ∧
    (∀ pipe, (from_raw_id id).1 = false → ¬(buf.length < 5 ∨ buf.take 5 ≠ writeLit) →
      P (from_raw_id id).2 = some pipe → pipe.has_run_dup = true →
      (PipeScheme.kdup P id buf).result = .error .EBADF) ∧
    (∀ pipe, (from_raw_id id).1 = false → ¬(buf.length < 5 ∨ buf.take 5 ≠ writeLit) →
      P (from_raw_id id).2 = some pipe → pipe.has_run_dup = false →
      (PipeScheme.kdup P id buf).result = .ok ((from_raw_id id).2 ||| WRITE_NOT_READ_BIT) ∧
      (PipeScheme.kdup P id buf).pipes (from_raw_id id).2 =
        some { pipe with has_run_dup := true }) := by
  refine ⟨?_, ?_, ?_, ?_, ?_⟩
  · intro h1
    unfold PipeScheme.kdup
    rw [if_pos h1]
  · intro h1 h2
    unfold PipeScheme.kdup
    rw [if_neg (by simp [h1]), if_pos h2]
  · intro h1 h2 hP
    unfold PipeScheme.kdup
    rw [if_neg (by simp [h1]), if_neg h2]
    simp only [hP]
  · intro pipe h1 h2 hP h3
    unfold PipeScheme.kdup
    rw [if_neg (by simp [h1]), if_neg h2]
    simp only [hP]
    rw [if_pos h3]
  · intro pipe h1 h2 hP h3
    unfold PipeScheme.kdup
    rw [if_neg (by simp [h1]), if_neg h2]
    simp only [hP]
    rw [if_neg (by simp [h3])]
    exact ⟨rfl, by simp⟩

theorem pipe_kdup_counterexample :
    (PipeScheme.kdup (fun k => if k = 1 then some (Pipe.new 0) else none) 1
        [119, 114, 105, 116, 101, 115]).result = .ok (1 ||| WRITE_NOT_READ_BIT) ∧
    ([119, 114, 105, 116, 101, 115] : List Nat) ≠ writeLit ∧
    ([119, 114, 105, 116, 101, 115] : List Nat).length ≥ 5 := by
  refine ⟨?_, by decide, by decide⟩
  rfl

theorem pipe_kdup_spec_witness :
    ((from_raw_id 1).1 = false ∧
     ¬(([119, 114, 105, 116, 101] : List Nat).length < 5 ∨
        ([119, 114, 105, 116, 101] : List Nat).take 5 ≠ writeLit) ∧
     (fun k => if k = 1 then some (Pipe.new 0) else none) (from_raw_id 1).2
        = some (Pipe.new 0) ∧
     (Pipe.new 0).has_run_dup = false) ∧
    ((PipeScheme.kdup (fun k => if k = 1 then some (Pipe.new 0) else none) 1
        [119, 114, 105, 116, 101]).result = .ok ((from_raw_id 1).2 ||| WRITE_NOT_READ_BIT) ∧
     (PipeScheme.kdup (fun k => if k = 1 then some (Pipe.new 0) else none) 1
        [119, 114, 105, 116, 101]).pipes (from_raw_id 1).2 =
       some { Pipe.new 0 with has_run_dup := true }) :=
  ⟨⟨by decide, by decide, by decide, by decide⟩,
    (pipe_kdup_spec _ 1 _).2.2.2.2 (Pipe.new 0) (by decide) (by decide) (by decide) (by decide)⟩

/-- C8: closing one side of an existing pipe succeeds, notifies the
opposite side's wait condition, and posts the appropriate event
(EVENT_READ keyed to the reader id on writer close, EVENT_WRITE keyed
to the writer id on reader close); the record is removed from the
registry exactly when, at close time, the other side is already dead,
and otherwise it is kept with this side's alive flag cleared. -/
theorem pipe_close_spec (P : Nat → Option Pipe) (id : Nat) (pipe : Pipe)
    (hp : P (from_raw_id id).2 = some pipe) :
    (PipeScheme.close P id).result = .ok 0 ∧
    ((from_raw_id id).1 = true →
      (PipeScheme.close P id).events = [((from_raw_id id).2, EVENT_READ)] ∧
      (PipeScheme.close P id).notified = [.readCond] ∧
      ((PipeScheme.close P id).pipes (from_raw_id id).2 = none ↔
        pipe.reader_is_alive = false) ∧
      (pipe.reader_is_alive = true →
        (PipeScheme.close P id).pipes (from_raw_id id).2 =
          some { pipe with writer_is_alive := false })) ∧
    ((from_raw_id id).1 = false →
      (PipeScheme.close P id).events = [((from_raw_id id).2 ||| WRITE_NOT_READ_BIT, EVENT_WRITE)] ∧
      (PipeScheme.close P id).notified = [.writeCond] ∧
      ((PipeScheme.close P id).pipes (from_raw_id id).2 = none ↔
        pipe.writer_is_alive = false) ∧
      (pipe.writer_is_alive = true →
        (PipeScheme.close P id).pipes (from_raw_id id).2 =
          some { pipe with reader_is_alive := false })) := by
  unfold PipeScheme.close
  simp only [hp]
  by_cases hd : (from_raw_id id).1 = true
  · rw [if_pos hd]
    refine ⟨rfl, fun _ => ⟨rfl, rfl, ?_, ?_⟩, fun hc => absurd hd (by simp [hc])⟩
    · by_cases hcr : pipe.reader_is_alive = false
      · simp [hcr]
      · simp [hcr]
    · intro halive
      have hcr : ¬ pipe.reader_is_alive = false := by simp [halive]
      simp [hcr]
  · rw [if_neg hd]
    refine ⟨rfl, fun hc => absurd hc hd, fun _ => ⟨rfl, rfl, ?_, ?_⟩⟩
    · by_cases hcr : pipe.writer_is_alive = false
      · simp [hcr]
      · simp [hcr]
    · intro halive
      have hcr : ¬ pipe.writer_is_alive = false := by simp [halive]
      simp [hcr]

theorem pipe_close_spec_witness :
    ((fun k => if k = 1 then some (Pipe.new 0) else none) (from_raw_id 1).2
        = some (Pipe.new 0)) ∧
    ((PipeScheme.close (fun k => if k = 1 then some (Pipe.new 0) else none) 1).result = .ok 0 ∧
     ((from_raw_id 1).1 = true →
       (PipeScheme.close (fun k => if k = 1 then some (Pipe.new 0) else none) 1).events
          = [((from_raw_id 1).2, EVENT_READ)] ∧
       (PipeScheme.close (fun k => if k = 1 then some (Pipe.new 0) else none) 1).notified
          = [.readCond] ∧
       ((PipeScheme.close (fun k => if k = 1 then some (Pipe.new 0) else none) 1).pipes
            (from_raw_id 1).2 = none ↔ (Pipe.new 0).reader_is_alive = false) ∧
       ((Pipe.new 0).reader_is_alive = true →
         (PipeScheme.close (fun k => if k = 1 then some (Pipe.new 0) else none) 1).pipes
            (from_raw_id 1).2 = some { Pipe.new 0 with writer_is_alive := false })) ∧
     ((from_raw_id 1).1 = false →
       (PipeScheme.close (fun k => if k = 1 then some (Pipe.new 0) else none) 1).events
          = [((from_raw_id 1).2 ||| WRITE_NOT_READ_BIT, EVENT_WRITE)] ∧
       (PipeScheme.close (fun k => if k = 1 then some (Pipe.new 0) else none) 1).notified
          = [.writeCond] ∧
       ((PipeScheme.close (fun k => if k = 1 then some (Pipe.new 0) else none) 1).pipes
            (from_raw_id 1).2 = none ↔ (Pipe.new 0).writer_is_alive = false) ∧
       ((Pipe.new 0).writer_is_alive = true →
         (PipeScheme.close (fun k => if k = 1 then some (Pipe.new 0) else none) 1).pipes
            (from_raw_id 1).2 = some { Pipe.new 0 with reader_is_alive := false }))) :=
  ⟨by decide, pipe_close_spec _ 1 _ (by decide)⟩

/-- C4: the claim (matching the code's own doc comment, "They are only
freed when the file descriptor is closed") fails on the code.  Opening
`irq:cpu-00/16` with O_CREAT reserves vector 48 on CPU 0, but closing
the handle does not release it — `close` tests `handle_irq >
BASE_IRQ_COUNT` (strict), so irq 16 is never released and a reopen
fails with EEXIST.  For comparison, irq 17 is released.  Moreover close
hardcodes CPU 0, so a handle opened under `cpu-01` leaks that CPU's
reservation too. -/
theorem irq_close_reservation_leak :
    (c4Open c4Path16).reserved 0 (irq_to_vector 16) = true ∧
    (c4Close (c4Open c4Path16)).reserved 0 (irq_to_vector 16) = true ∧
    IrqScheme.open irqEnvC4 (c4Close (c4Open c4Path16)) c4Path16 O_CREAT 0 0
      = some (.error .EEXIST) ∧
    (c4Open c4Path17).reserved 0 (irq_to_vector 17) = true ∧
    (c4Close (c4Open c4Path17)).reserved 0 (irq_to_vector 17) = false ∧
    (c4Open c4Path20).reserved 1 (irq_to_vector 20) = true ∧
    (c4Close (c4Open c4Path20)).reserved 1 (irq_to_vector 20) = true := by
  refine ⟨rfl, rfl, rfl, rfl, rfl, rfl, rfl⟩

/-- C10: every open on the irq scheme by a caller whose uid is not 0
fails with EACCES, for every path and every flag combination, so no
handle of any kind can be obtained by a non-root caller. -/
theorem irq_open_nonroot_eacces (env : IrqEnv) (st : IrqState) (path : List Char)
    (flags uid gid : Nat) (h : uid ≠ 0) :
    IrqScheme.open env st path flags uid gid = some (.error .EACCES) := by
  unfold IrqScheme.open
  rw [if_pos h]

theorem irq_open_nonroot_eacces_witness :
    (1 : Nat) ≠ 0 ∧
    IrqScheme.open irqEnvC4 irqStC4 c4Path16 O_CREAT 1 0 = some (.error .EACCES) :=
  ⟨by decide, irq_open_nonroot_eacces irqEnvC4 irqStC4 c4Path16 O_CREAT 1 0 (by decide)⟩


theorem lookup_setHandle (hs : List (Nat × IrqHandle)) (fd : Nat) (h h0 : IrqHandle)
    (hl : hs.lookup fd = some h0) : (setHandle hs fd h).lookup fd = some h := by
  induction hs with
  | nil => simp [List.lookup] at hl
  | cons p hs ih =>
    obtain ⟨k, v⟩ := p
    simp only [setHandle, List.map_cons]
    by_cases hk : k = fd
    · subst hk
      rw [if_pos (show (k, v).1 = k from rfl)]
      simp [List.lookup]
    · have hb2 : (fd == k) = false := by
        simp [Ne.symm hk]
      rw [if_neg (by simpa using hk)]
      simp only [List.lookup, hb2] at hl ⊢
      exact ih hl

/-- C6: for every IRQ handle read with a user buffer of at least one
machine word, the read returns the current `COUNTS[irq]` value as a
machine word iff that count differs from the handle's ack, and
otherwise returns 0 bytes without error; consequently, after a
successful write of the current count (which stores it into ack and
acknowledges the vector), a read returns 0 bytes, and after the next
`irq_trigger` on that vector a read returns the incremented count
again. -/
theorem irq_read_ack_gate (env : IrqEnv) (st : IrqState) (fd ack irq buflen : Nat)
    (hh : st.handles.lookup fd = some (.Irq ack irq)) (hb : WORD_SIZE ≤ buflen) :
    (ack ≠ st.counts irq →
      IrqScheme.kread env st fd buflen = .ok (WORD_SIZE, .word (st.counts irq), st)) ∧
    (ack = st.counts irq →
      IrqScheme.kread env st fd buflen = .ok (0, .nothing, st)) ∧
    (IrqScheme.kwrite st fd buflen (st.counts irq) =
      .ok (WORD_SIZE,
        { st with handles := setHandle st.handles fd (.Irq (st.counts irq) irq) }, true)) ∧
    (IrqScheme.kread env
        { st with handles := setHandle st.handles fd (.Irq (st.counts irq) irq) } fd buflen
      = .ok (0, .nothing,
        { st with handles := setHandle st.handles fd (.Irq (st.counts irq) irq) })) ∧
    ((IrqScheme.kread env
        (irq_trigger { st with
            handles := setHandle st.handles fd (.Irq (st.counts irq) irq) } irq).1
        fd buflen).map (fun r => (r.1, r.2.1))
      = .ok (WORD_SIZE, .word (st.counts irq + 1))) := by
  have hl2 : (setHandle st.handles fd (.Irq (st.counts irq) irq)).lookup fd
      = some (.Irq (st.counts irq) irq) :=
    lookup_setHandle st.handles fd _ _ hh
  refine ⟨?_, ?_, ?_, ?_, ?_⟩
  · intro hne
    unfold IrqScheme.kread
    simp only [hh]
    rw [if_pos hb, if_pos hne]
  · intro heq
    unfold IrqScheme.kread
    simp only [hh]
    rw [if_pos hb, if_neg (by simp [heq])]
  · unfold IrqScheme.kwrite
    simp only [hh]
    rw [if_pos hb]
    simp
  · unfold IrqScheme.kread
    simp only [hl2]
    rw [if_pos hb, if_neg (by simp)]
  · unfold IrqScheme.kread
    simp only [irq_trigger, hl2]
    rw [if_pos hb]
    rw [if_pos (by simp)]
    simp [Except.map]

theorem irq_read_ack_gate_witness :
    (irqStC6.handles.lookup 5 = some (.Irq 0 3) ∧ WORD_SIZE ≤ 8) ∧
    ((0 ≠ irqStC6.counts 3 →
      IrqScheme.kread irqEnvC4 irqStC6 5 8 = .ok (WORD_SIZE, .word (irqStC6.counts 3), irqStC6)) ∧
    (0 = irqStC6.counts 3 →
      IrqScheme.kread irqEnvC4 irqStC6 5 8 = .ok (0, .nothing, irqStC6)) ∧
    (IrqScheme.kwrite irqStC6 5 8 (irqStC6.counts 3) =
      .ok (WORD_SIZE,
        { irqStC6 with handles := setHandle irqStC6.handles 5 (.Irq (irqStC6.counts 3) 3) }, true)) ∧
    (IrqScheme.kread irqEnvC4
        { irqStC6 with handles := setHandle irqStC6.handles 5 (.Irq (irqStC6.counts 3) 3) } 5 8
      = .ok (0, .nothing,
        { irqStC6 with handles := setHandle irqStC6.handles 5 (.Irq (irqStC6.counts 3) 3) })) ∧
    ((IrqScheme.kread irqEnvC4
        (irq_trigger { irqStC6 with
            handles := setHandle irqStC6.handles 5 (.Irq (irqStC6.counts 3) 3) } 3).1
        5 8).map (fun r => (r.1, r.2.1))
      = .ok (WORD_SIZE, .word (irqStC6.counts 3 + 1)))) :=
  ⟨⟨by decide, by decide⟩, irq_read_ack_gate irqEnvC4 irqStC6 5 0 3 8 (by decide) (by decide)⟩

theorem claimStep_fields (c : Context) (env : SwitchEnv) (cpu_id : Nat) :
    (claimStep c env cpu_id).running = c.running ∧
    (claimStep c env cpu_id).ksig_restore = c.ksig_restore ∧
    (claimStep c env cpu_id).ksig = c.ksig ∧
    (claimStep c env cpu_id).kstack = c.kstack ∧
    (claimStep c env cpu_id).status = c.status ∧
    (claimStep c env cpu_id).pending = c.pending ∧
    (claimStep c env cpu_id).wake = c.wake := by
  unfold claimStep
  split
  · exact ⟨rfl, rfl, rfl, rfl, rfl, rfl, rfl⟩
  · exact ⟨rfl, rfl, rfl, rfl, rfl, rfl, rfl⟩

theorem unblock_fields (c : Context) :
    (Context.unblock c).pending = c.pending ∧
    (Context.unblock c).wake = c.wake ∧
    (c.status = .Blocked → (Context.unblock c).status = .Runnable) ∧
    (c.status ≠ .Blocked → (Context.unblock c).status = c.status) := by
  unfold Context.unblock
  by_cases h : c.status = .Blocked
  · rw [if_pos h]
    exact ⟨rfl, rfl, fun _ => rfl, fun hn => absurd h hn⟩
  · rw [if_neg h]
    exact ⟨rfl, rfl, fun hb => absurd hb h, fun _ => rfl⟩

theorem signalRestoreStep_spec (env : SwitchEnv) (c1 : Context)
    (hwf : c1.ksig_restore = true → ksigComplete c1 = true) :
    ∃ c2, signalRestoreStep env c1 = some c2 ∧
      c2.pending = c1.pending ∧
      c2.wake = c1.wake ∧
      (c2.status = c1.status ∨ (c1.status = .Blocked ∧ c2.status = .Runnable)) := by
  by_cases hks : c1.ksig_restore = true
  · have hc := hwf hks
    have hinv : ∃ a f s g ks, c1.ksig = some (a, f, some s, g) ∧ c1.kstack = some ks := by
      unfold ksigComplete at hc
      rcases h1 : c1.ksig with _ | ⟨a, f, so, g⟩
      · rw [h1] at hc
        simp at hc
      · rcases h2 : c1.kstack with _ | ks
        · rw [h1, h2] at hc
          simp at hc
        · rcases h3 : so with _ | s
          · rw [h1, h3, h2] at hc
            simp at hc
          · exact ⟨a, f, s, g, ks, rfl, rfl⟩
    obtain ⟨a, f, s, g, ks, hk, hst⟩ := hinv
    unfold signalRestoreStep
    rw [if_pos hks, hk, hst]
    refine ⟨_, rfl, ?_, ?_, ?_⟩
    · exact (unblock_fields _).1
    · exact (unblock_fields _).2.1
    · by_cases hb : c1.status = .Blocked
      · exact Or.inr ⟨hb, (unblock_fields _).2.2.1 hb⟩
      · exact Or.inl ((unblock_fields _).2.2.2 hb)
  · unfold signalRestoreStep
    rw [if_neg hks]
    exact ⟨c1, rfl, rfl, rfl, Or.inl rfl⟩

theorem runnableTail_spec (env : SwitchEnv) (c2 : Context) :
    (runnableTail env c2).2 = decide ((runnableTail env c2).1.status = .Runnable) ∧
    (c2.status = .Runnable → (runnableTail env c2).1.status = .Runnable) ∧
    (c2.status = .Blocked → c2.pending ≠ [] → (runnableTail env c2).1.status = .Runnable) ∧
    (∀ w, c2.status = .Blocked → c2.wake = some w → w ≤ env.now →
      (runnableTail env c2).1.status = .Runnable) := by
  simp only [runnableTail]
  by_cases hpend : c2.status = .Blocked ∧ c2.pending ≠ []
  · rw [if_pos hpend]
    have hru : (Context.unblock c2).status = .Runnable := (unblock_fields _).2.2.1 hpend.1
    have hcond : ¬ ((Context.unblock c2).status = .Blocked ∧ (Context.unblock c2).wake.isSome) := by
      intro hcon
      rw [hru] at hcon
      exact absurd hcon.1 (by decide)
    rw [if_neg hcond]
    exact ⟨trivial, fun _ => hru, fun _ _ => hru, fun _ _ _ _ => hru⟩
  · rw [if_neg hpend]
    by_cases hb : c2.status = .Blocked
    · by_cases hcond : c2.status = .Blocked ∧ c2.wake.isSome
      · by_cases hnow : env.now ≥ c2.wake.getD 0
        · rw [if_pos hcond, if_pos hnow]
          have h4 : (Context.unblock { c2 with wake := none }).status = .Runnable :=
            (unblock_fields _).2.2.1 hb
          refine ⟨trivial, ?_, ?_, fun _ _ _ _ => h4⟩
          · intro h1
            exact absurd (hb.symm.trans h1) (by decide)
          · intro _ hne
            exact absurd ⟨hb, hne⟩ hpend
        · rw [if_pos hcond, if_neg hnow]
          refine ⟨trivial, fun h1 => h1, ?_, ?_⟩
          · intro _ hne
            exact absurd ⟨hb, hne⟩ hpend
          · intro w _ hw2 hle
            rw [hw2] at hnow
            simp at hnow
            omega
      · rw [if_neg hcond]
        refine ⟨trivial, fun h1 => h1, ?_, ?_⟩
        · intro _ hne
          exact absurd ⟨hb, hne⟩ hpend
        · intro w _ hw2 _
          exact absurd ⟨hb, by rw [hw2]; rfl⟩ hcond
    · have hcond : ¬ (c2.status = .Blocked ∧ c2.wake.isSome) := fun hcon => hb hcon.1
      rw [if_neg hcond]
      exact ⟨trivial, fun h1 => h1, fun h1 _ => absurd h1 hb, fun _ h1 _ _ => absurd h1 hb⟩

/-- C9: `update_runnable(ctx, cpu_id)` returns false whenever
`ctx.running` is true, `ctx.ptrace_stop` is true, or the context is
owned by a different CPU after the optional first-time claim that
respects `sched_affinity`; otherwise it unblocks the context when its
pending signal queue is non-empty or its wake deadline has been
reached, and its result equals `ctx.status == Runnable` after those
updates. -/
theorem update_runnable_spec (env : SwitchEnv) (c : Context) (cpu_id : Nat)
    (hwf : c.ksig_restore = true → ksigComplete c = true) :
    ∃ c' r, update_runnable env c cpu_id = some (c', r) ∧
      (c.running = true → r = false) ∧
      (c.ptrace_stop = true → r = false) ∧
      ((claimStep c env cpu_id).cpu_id ≠ some cpu_id → r = false) ∧
      (c.running = false → c.ptrace_stop = false →
        (claimStep c env cpu_id).cpu_id = some cpu_id →
        ((c.status = .Blocked → c.pending ≠ [] → c'.status = .Runnable) ∧
         (∀ w, c.status = .Blocked → c.wake = some w → w ≤ env.now →
            c'.status = .Runnable) ∧
         r = decide (c'.status = .Runnable))) := by
  simp only [update_runnable]
  by_cases hr : c.running = true
  · rw [if_pos hr]
    exact ⟨c, false, rfl, fun _ => rfl, fun _ => rfl, fun _ => rfl,
      fun h1 _ _ => absurd (hr.symm.trans h1) (by decide)⟩
  · rw [if_neg hr]
    by_cases hp : c.ptrace_stop = true
    · rw [if_pos hp]
      exact ⟨c, false, rfl, fun _ => rfl, fun _ => rfl, fun _ => rfl,
        fun _ h2 _ => absurd (hp.symm.trans h2) (by decide)⟩
    · rw [if_neg hp]
      by_cases hcl : (claimStep c env cpu_id).cpu_id ≠ some cpu_id
      · rw [if_pos hcl]
        exact ⟨_, false, rfl, fun _ => rfl, fun _ => rfl, fun _ => rfl,
          fun _ _ h3 => absurd h3 hcl⟩
      · rw [if_neg hcl]
        have hf := claimStep_fields c env cpu_id
        have hwf1 : (claimStep c env cpu_id).ksig_restore = true →
            ksigComplete (claimStep c env cpu_id) = true := by
          intro h
          rw [hf.2.1] at h
          have hcc := hwf h
          unfold ksigComplete at hcc ⊢
          rw [hf.2.2.1, hf.2.2.2.1]
          exact hcc
        obtain ⟨c2, hstep, hpend2, hwake2, hstat2⟩ :=
          signalRestoreStep_spec env (claimStep c env cpu_id) hwf1
        rw [hstep]
        obtain ⟨ht1, ht2, ht3, ht4⟩ := runnableTail_spec env c2
        refine ⟨(runnableTail env c2).1, (runnableTail env c2).2, rfl,
          fun h1 => absurd h1 hr, fun h2 => absurd h2 hp,
          fun h3 => absurd h3 hcl, ?_⟩
        intro _ _ _
        refine ⟨?_, ?_, ht1⟩
        · intro hbl hpending
          have hp2 : c2.pending = c.pending := hpend2.trans hf.2.2.2.2.2.1
          rcases hstat2 with hs | ⟨_, hsr⟩
          · have hsblocked : c2.status = .Blocked := by
              rw [hs, hf.2.2.2.2.1, hbl]
            refine ht3 hsblocked ?_
            rw [hp2]
            exact hpending
          · exact ht2 hsr
        · intro w hbl hw hle
          have hw2 : c2.wake = some w := by
            rw [hwake2, hf.2.2.2.2.2.2, hw]
          rcases hstat2 with hs | ⟨_, hsr⟩
          · have hsblocked : c2.status = .Blocked := by
              rw [hs, hf.2.2.2.2.1, hbl]
            exact ht4 w hsblocked hw2 hle
          · exact ht2 hsr

theorem update_runnable_spec_witness :
    (ctxC9.ksig_restore = true → ksigComplete ctxC9 = true) ∧
    (∃ c' r, update_runnable envC9 ctxC9 0 = some (c', r) ∧
      (ctxC9.running = true → r = false) ∧
      (ctxC9.ptrace_stop = true → r = false) ∧
      ((claimStep ctxC9 envC9 0).cpu_id ≠ some 0 → r = false) ∧
      (ctxC9.running = false → ctxC9.ptrace_stop = false →
        (claimStep ctxC9 envC9 0).cpu_id = some 0 →
        ((ctxC9.status = .Blocked → ctxC9.pending ≠ [] → c'.status = .Runnable) ∧
         (∀ w, ctxC9.status = .Blocked → ctxC9.wake = some w → w ≤ envC9.now →
            c'.status = .Runnable) ∧
         r = decide (c'.status = .Runnable)))) :=
  ⟨by decide, update_runnable_spec envC9 ctxC9 0 (by decide)⟩
